import Mathlib

/-!
Shallow embedding of `src/num_string.py` (leoconst/number-string): functions
for representing numbers in plain English.  Python dictionaries become
association lists, Python exceptions become an explicit `Except` error type
(`ValueError` for parse failures, `KeyError` for missing dictionary keys,
`IndexError` for out-of-range tuple indexing), and the digit generator
`last_to_first_digit` is totalised with a fuel argument (the fuel equals the
input number, which is always sufficient for bases greater than one; the
source only ever calls it with base 1000).
-/

set_option maxRecDepth 100000

set_option maxHeartbeats 4000000

namespace NumString

/-- The Python exceptions that `num_string.py` can raise: `ValueError`
(raised explicitly for unparsable floats and by `int()` on bad input),
`KeyError` (a dictionary lookup on a missing key) and `IndexError`
(indexing `ILLIONS` out of range). -/
inductive Err where
  | valueError
  | keyError
  | indexError
deriving DecidableEq, Repr

/-- `DIGIT_NAMES` (lines 13-24): digit 0-9 to word. -/
def DIGIT_NAMES : List (Nat × String) :=
  [(0, "zero"), (1, "one"), (2, "two"), (3, "three"), (4, "four"),
   (5, "five"), (6, "six"), (7, "seven"), (8, "eight"), (9, "nine")]

/-- `NUMBER_NAMES` (lines 26-45): teens 10-19 and tens 20-90 to word. -/
def NUMBER_NAMES : List (Nat × String) :=
  [(10, "ten"), (11, "eleven"), (12, "twelve"), (13, "thirteen"),
   (14, "fourteen"), (15, "fifteen"), (16, "sixteen"), (17, "seventeen"),
   (18, "eighteen"), (19, "nineteen"), (20, "twenty"), (30, "thirty"),
   (40, "forty"), (50, "fifty"), (60, "sixty"), (70, "seventy"),
   (80, "eighty"), (90, "ninety")]

/-- `UNIQUE_NUMBER_NAMES = {**DIGIT_NAMES, **NUMBER_NAMES}` (line 47): the
merged dictionary (the key sets are disjoint, so order is immaterial). -/
def UNIQUE_NUMBER_NAMES : List (Nat × String) := DIGIT_NAMES ++ NUMBER_NAMES

/-- `ILLIONS` (lines 49-82): the ordered scale-word roots. -/
def ILLIONS : List String :=
  ["m", "b", "tr", "quadr", "quint", "sext", "sept", "oct", "non", "dec",
   "undec", "duodec", "tredec", "quattuordec", "quindec", "sexdec",
   "septendec", "octodec", "novemdec", "vigint", "unvigint", "duovigint",
   "trevigint", "quattuorvigint", "quinvigint", "sexvigint", "septenvigint",
   "octovigint", "novemvigint", "trigint", "untrigint", "duotrigint"]

/-- `MAX = 10**((len(ILLIONS) + 2)*3) - 1` (line 86). -/
def MAX : Nat := 10 ^ ((ILLIONS.length + 2) * 3) - 1

/-- A Python dictionary access `d[key]`: the value, or a `KeyError`. -/
def dict_get (d : List (Nat × String)) (key : Nat) : Except Err String :=
  match d.lookup key with
  | some v => Except.ok v
  | none => Except.error Err.keyError

/-- Fuel-driven helper for `last_to_first_digit`: while the number is
non-zero, yield `number % base` and continue with `number // base`. -/
def digits_rev (fuel number base : Nat) : List Nat :=
  match fuel with
  | 0 => []
  | fuel2 + 1 =>
    if number = 0 then []
    else number % base :: digits_rev fuel2 (number / base) base

/-- `last_to_first_digit` (lines 89-94): each digit of `number` in `base`,
least significant first.  Fuel `number` suffices whenever `1 < base`. -/
def last_to_first_digit (number : Nat) (base : Nat) : List Nat :=
  digits_rev number number base

/-- Lines 122-127 of `integer_string`: the name of `tens = chunk % 100`,
either directly from `UNIQUE_NUMBER_NAMES` or as a hyphenated compound
`NUMBER_NAMES[tens - digit] ++ "-" ++ DIGIT_NAMES[digit]`. -/
def tens_name (tens : Nat) : Except Err String :=
  match UNIQUE_NUMBER_NAMES.lookup tens with
  | some name => Except.ok name
  | none =>
    let digit := tens % 10
    match NUMBER_NAMES.lookup (tens - digit), DIGIT_NAMES.lookup digit with
    | some t, some d => Except.ok (t ++ "-" ++ d)
    | _, _ => Except.error Err.keyError

/-- Lines 116-135 of `integer_string`: the word list for one chunk in
[0, 999]: hundreds words (with the optional conjunction "and") followed by
the tens/units name when `tens` is non-zero. -/
def chunk_words (chunk : Nat) (use_and : Bool) : Except Err (List String) :=
  let hundreds := chunk / 100
  let tens := chunk % 100
  match tens_name tens with
  | Except.error e => Except.error e
  | Except.ok tname =>
    match (if hundreds ≠ 0 then
             match DIGIT_NAMES.lookup hundreds with
             | some h =>
               Except.ok ([h, "hundred"] ++
                 (if use_and = true ∧ tens ≠ 0 then ["and"] else []))
             | none => Except.error Err.keyError
           else Except.ok ([] : List String)) with
    | Except.error e => Except.error e
    | Except.ok hwords =>
      Except.ok (hwords ++ (if tens ≠ 0 then [tname] else []))

/-- Lines 137-140 of `integer_string`: the scale word appended for chunk
position `chunk_index`: nothing for 0, "thousand" for 1, and
`ILLIONS[chunk_index - 2] + "illion"` beyond (an `IndexError` when the
index is out of range). -/
def scale_words (chunk_index : Nat) : Except Err (List String) :=
  if chunk_index = 1 then Except.ok ["thousand"]
  else if chunk_index > 1 then
    match ILLIONS.get? (chunk_index - 2) with
    | some root => Except.ok [root ++ "illion"]
    | none => Except.error Err.indexError
  else Except.ok []

/-- Lines 110-142 of `integer_string`: the chunk loop.  Zero chunks are
skipped; every other chunk is rendered, gets its scale word, and the joined
phrase is `appendleft`-ed onto the deque, so the result list carries the
most significant chunk first. -/
def chunk_phrases : List Nat → Nat → Bool → Except Err (List String)
  | [], _, _ => Except.ok []
  | chunk :: rest, chunk_index, use_and =>
    if chunk = 0 then chunk_phrases rest (chunk_index + 1) use_and
    else
      match chunk_words chunk use_and with
      | Except.error e => Except.error e
      | Except.ok words =>
        match scale_words chunk_index with
        | Except.error e => Except.error e
        | Except.ok swords =>
          match chunk_phrases rest (chunk_index + 1) use_and with
          | Except.error e => Except.error e
          | Except.ok tail =>
            Except.ok (tail ++ [String.intercalate " " (words ++ swords)])

/-- `integer_string` (lines 97-144): an integer's value in plain English.
Zero returns `DIGIT_NAMES[0]` directly; otherwise the base-1000 chunks of
the absolute value are rendered and joined with ", ", prefixed by
"minus " for negative input. -/
def integer_string (number : Int) (use_and : Bool) : Except Err String :=
  if number = 0 then dict_get DIGIT_NAMES number.natAbs
  else
    let sign_word := if number < 0 then "minus " else ""
    match chunk_phrases (last_to_first_digit number.natAbs 1000) 0 use_and with
    | Except.error e => Except.error e
    | Except.ok phrases =>
      Except.ok (sign_word ++ String.intercalate ", " phrases)

/-- `Except.isOk` spelled out, to state success claims. -/
def except_is_ok {ε α : Type} : Except ε α → Bool
  | Except.ok _ => true
  | Except.error _ => false

instance instDecEqExcept {ε α : Type} [DecidableEq ε] [DecidableEq α] :
    DecidableEq (Except ε α) := fun a b =>
  match a, b with
  | Except.error e1, Except.error e2 =>
    if h : e1 = e2 then isTrue (by rw [h])
    else isFalse (fun he => h (Except.error.inj he))
  | Except.error _, Except.ok _ => isFalse (fun he => Except.noConfusion he)
  | Except.ok _, Except.error _ => isFalse (fun he => Except.noConfusion he)
  | Except.ok a1, Except.ok a2 =>
    if h : a1 = a2 then isTrue (by rw [h])
    else isFalse (fun he => h (Except.ok.inj he))

/-- An ASCII digit `0`-`9` (the model of the regex class `\d` and of the
digits accepted by Python `int()`, restricted to ASCII). -/
def is_ascii_digit (c : Char) : Bool :=
  decide (48 ≤ c.toNat) && decide (c.toNat ≤ 57)

/-- The ASCII whitespace stripped by Python `int()` from its argument
(space, tab, line feed, vertical tab, form feed, carriage return, by
codepoint). -/
def is_py_space (c : Char) : Bool :=
  c.toNat == 32 || c.toNat == 9 || c.toNat == 10 ||
    c.toNat == 11 || c.toNat == 12 || c.toNat == 13

/-- Strip leading and trailing whitespace, as Python `int()` does. -/
def strip_chars (l : List Char) : List Char :=
  ((l.dropWhile is_py_space).reverse.dropWhile is_py_space).reverse

/-- The digit-and-underscore body accepted by Python `int()` after an
optional sign: digits with single underscores between digits, accumulating
the decimal value onto `acc`. -/
def digits_value (acc : Nat) : List Char → Option Nat
  | [] => some acc
  | c :: rest =>
    if is_ascii_digit c then digits_value (10 * acc + (c.toNat - 48)) rest
    else if c = '_' then
      match rest with
      | d :: rest2 =>
        if is_ascii_digit d then digits_value (10 * acc + (d.toNat - 48)) rest2
        else none
      | [] => none
    else none

/-- At least one digit followed by the digit-and-underscore body. -/
def digits_run : List Char → Option Nat
  | [] => none
  | c :: rest =>
    if is_ascii_digit c then digits_value (c.toNat - 48) rest else none

/-- The sign-and-digits phase of Python `int(s)` after whitespace
stripping: an optional sign followed by the digit run. -/
def py_int_chars : List Char → Option Int
  | [] => none
  | c :: rest =>
    if c = '+' then (digits_run rest).map (fun v : Nat => (v : Int))
    else if c = '-' then (digits_run rest).map (fun v : Nat => -(v : Int))
    else (digits_run (c :: rest)).map (fun v : Nat => (v : Int))

/-- Python `int(s)` on a string: strip whitespace, optional sign, then
decimal digits with single underscores between digits; `none` models the
`ValueError` that `int()` raises otherwise (ASCII inputs only). -/
def py_int (s : String) : Option Int :=
  py_int_chars (strip_chars s.data)

/-- Continuation of `\d+(_\d+)*` once at least one digit of the current
run has been consumed: more digits, or an underscore that must be followed
by at least one digit. -/
def int_tail_match : List Char → Bool
  | [] => true
  | c :: rest =>
    if is_ascii_digit c then int_tail_match rest
    else if c = '_' then
      match rest with
      | d :: rest2 => is_ascii_digit d && int_tail_match rest2
      | [] => false
    else false

/-- `INT_REGEX.fullmatch` with `INT_PATTERN = r'0|([1-9]\d+(_\d+)*)'`
(lines 147-149): the literal string "0", or a digit 1-9 followed by at
least one more digit, with underscore-separated digit groups allowed. -/
def int_fullmatch (s : String) : Bool :=
  match s.data with
  | [c] => c == '0'
  | c :: d :: rest =>
    (decide (49 ≤ c.toNat) && decide (c.toNat ≤ 57)) &&
      is_ascii_digit d && int_tail_match rest
  | _ => false

/-- `DIGIT_NAMES[int(digit)]` for one character of the fractional part
(line 172): `int()` on the single character, then the dictionary lookup. -/
def digit_name_of_char (c : Char) : Except Err String :=
  match py_int (String.mk [c]) with
  | some d =>
    if d < 0 then Except.error Err.keyError else dict_get DIGIT_NAMES d.toNat
  | none => Except.error Err.valueError

/-- The fractional-digit words of line 172, one per character, left to
right, stopping at the first failing character as the Python generator
consumed by `' '.join` does. -/
def digit_words : List Char → Except Err (List String)
  | [] => Except.ok []
  | c :: rest =>
    match digit_name_of_char c with
    | Except.error e => Except.error e
    | Except.ok w =>
      match digit_words rest with
      | Except.error e => Except.error e
      | Except.ok ws => Except.ok (w :: ws)

/-- Python `s.split('.')`: the maximal runs of characters between the
occurrences of the full stop (always at least one part). -/
def split_on_dot : List Char → List (List Char)
  | [] => [[]]
  | c :: rest =>
    match split_on_dot rest with
    | [] => [[]]
    | p :: ps => if c = '.' then [] :: p :: ps else (c :: p) :: ps

/-- Float handling of `number_string` (lines 165-174): split on the decimal
point into exactly an integer part and a fractional part (otherwise the
explicit `ValueError` of line 169), render the integer part, and render
each fractional character as its single-digit word joined by spaces. -/
def float_handling (s : String) : Except Err String :=
  match split_on_dot s.data with
  | [integer, points] =>
    match py_int (String.mk integer) with
    | none => Except.error Err.valueError
    | some i =>
      match integer_string i true with
      | Except.error e => Except.error e
      | Except.ok integer_part =>
        match digit_words points with
        | Except.error e => Except.error e
        | Except.ok names =>
          Except.ok (integer_part ++ " point " ++ String.intercalate " " names)
  | _ => Except.error Err.valueError

/-- The dynamically-typed argument of `number_string`: a string or an
integer (`float` arguments reach the same split through `str(number)` and
are outside this shallow embedding). -/
inductive PyValue where
  | str (s : String)
  | int (n : Int)
deriving DecidableEq

/-- `number_string` (lines 153-174): strings matching `INT_REGEX` delegate
to `integer_string(int(number))`; integers delegate directly; everything
else goes through the decimal-point split. -/
def number_string (number : PyValue) : Except Err String :=
  match number with
  | PyValue.str s =>
    if int_fullmatch s then
      match py_int s with
      | some n => integer_string n true
      | none => Except.error Err.valueError
    else float_handling s
  | PyValue.int n => integer_string n true

/-! ### Specification-side definitions

These follow the wording of the specification and of the claims, to be
compared against the code-side definitions above. -/

/-- Spec-side scale words: position 0 gets none, position 1 gets
"thousand", position `i ≥ 2` gets the scale root at index `i - 2`
concatenated with "illion". -/
def spec_scale (i : Nat) : List String :=
  if i = 0 then []
  else if i = 1 then ["thousand"]
  else [((ILLIONS.get? (i - 2)).getD "") ++ "illion"]

/-- Spec-side phrase of one chunk at position `i`: its chunk words followed
by its scale word, joined by single spaces. -/
def phrase_of (c i : Nat) (u : Bool) : String :=
  String.intercalate " " (((chunk_words c u).toOption.getD []) ++ spec_scale i)

/-- Spec-side integer rendering of a non-negative magnitude: enumerate the
base-1000 chunks with their positions, skip the zero chunks, attach scale
words by position, reverse to most-significant-first, and join with ", ". -/
def integer_string_spec (n : Nat) (u : Bool) : String :=
  String.intercalate ", "
    (((List.enumFrom 0 (last_to_first_digit n 1000)).filterMap
      (fun p => if p.2 = 0 then none else some (phrase_of p.2 p.1 u))).reverse)

/-- Spec-side numeric value of a recognized integer string: drop the
group-separator underscores and read the digits in base 10. -/
def spec_int_value (s : String) : Int :=
  ((s.data.filter (fun c => !(c == '_'))).foldl
    (fun a c => 10 * a + (c.toNat - 48)) 0 : Nat)

/-- Spec-side success condition for `number_string` (claim C9): the input
is a recognized integer string, an integer, or splits on the decimal point
into an integer part accepted by `int()` and a fractional digit sequence. -/
def recognized_value (v : PyValue) : Bool :=
  match v with
  | PyValue.int _ => true
  | PyValue.str s =>
    int_fullmatch s ||
      (match split_on_dot s.data with
       | [ipart, fpart] => (py_int (String.mk ipart)).isSome && fpart.all is_ascii_digit
       | _ => false)

/-- Every integer value that `number_string` hands to the renderer has
magnitude at most `MAX` (the supported-magnitude side condition). -/
def within_max (v : PyValue) : Bool :=
  match v with
  | PyValue.int n => decide (n.natAbs ≤ MAX)
  | PyValue.str s =>
    if int_fullmatch s then
      match py_int s with
      | some n => decide (n.natAbs ≤ MAX)
      | none => true
    else
      match split_on_dot s.data with
      | [ipart, _] =>
        match py_int (String.mk ipart) with
        | some n => decide (n.natAbs ≤ MAX)
        | none => true
      | _ => true

/-- Substring test on character lists, for the scale-word claims. -/
def starts_with : List Char → List Char → Bool
  | [], _ => true
  | _ :: _, [] => false
  | a :: as2, b :: bs => a == b && starts_with as2 bs

/-- `has_sub needle hay` holds when `needle` occurs contiguously in `hay`. -/
def has_sub (needle : List Char) : List Char → Bool
  | [] => needle.isEmpty
  | c :: rest => starts_with needle (c :: rest) || has_sub needle rest

/-- Checker for claim C4 at one value `n`: rendering succeeds, the phrase
contains no comma and neither scale word, and for compound tens (21-99 off
the tens) it is exactly one hyphen joining the tens-table word to the
digit-table word. -/
def c4_check (n : Nat) : Bool :=
  match integer_string (n : Int) true with
  | Except.error _ => false
  | Except.ok s =>
    s.data.count ',' == 0 &&
    !(has_sub ("thousand".data) s.data) &&
    !(has_sub ("illion".data) s.data) &&
    (if 21 ≤ n ∧ n ≤ 99 ∧ n % 10 ≠ 0 then
       s.data.count '-' == 1 &&
       (match NUMBER_NAMES.lookup (n - n % 10), DIGIT_NAMES.lookup (n % 10) with
        | some tw, some dw => s == tw ++ "-" ++ dw
        | _, _ => false)
     else true)

/-- Checker for claim C5 at one chunk value `c` and flag `u`: the chunk
words contain "and" exactly when the flag is enabled and both the hundreds
digit and the remainder are non-zero, and in that case the word list is
exactly the hundreds words, "and", then the tens/units name. -/
def c5_check (c : Nat) (u : Bool) : Bool :=
  match chunk_words c u with
  | Except.error _ => false
  | Except.ok ws =>
    ws.count "and" == (if u = true ∧ c / 100 ≠ 0 ∧ c % 100 ≠ 0 then 1 else 0) &&
    (if u = true ∧ c / 100 ≠ 0 ∧ c % 100 ≠ 0 then
       match DIGIT_NAMES.lookup (c / 100), tens_name (c % 100) with
       | some hw, Except.ok tn => ws == [hw, "hundred", "and", tn]
       | _, _ => false
     else true)

/-- Checker for claim C10 at one chunk value `c` (everything is a function
of the remainder `c % 100`): the chunk naming never hits a missing key,
remainders 1-9 are found directly in the merged table as the bare digit
word, and the hyphenated branch (a failed merged-table lookup) is reached
exactly for remainders 21-99 off the tens, where both of its lookups
succeed. -/
def c10_check (c : Nat) : Bool :=
  except_is_ok (chunk_words c true) && except_is_ok (chunk_words c false) &&
  (if 1 ≤ c % 100 ∧ c % 100 ≤ 9 then
     match DIGIT_NAMES.lookup (c % 100) with
     | some dw =>
       decide (UNIQUE_NUMBER_NAMES.lookup (c % 100) = some dw) &&
       decide (tens_name (c % 100) = Except.ok dw)
     | none => false
   else true) &&
  ((UNIQUE_NUMBER_NAMES.lookup (c % 100)).isNone ==
     (decide (21 ≤ c % 100) && decide (c % 100 ≤ 99) && decide (c % 100 % 10 ≠ 0))) &&
  (if (UNIQUE_NUMBER_NAMES.lookup (c % 100)).isNone = true then
     (NUMBER_NAMES.lookup (c % 100 - c % 100 % 10)).isSome &&
     (DIGIT_NAMES.lookup (c % 100 % 10)).isSome
   else true)

/-! ### Claims -/

/-- C2 counterexample: the fractional digits of "12.34" are rendered as
"three four", so `number_string("12.34")` is not
`integer_string(12) ++ " point one three"` as the claim states. -/
theorem claim_c2_counterexample :
    integer_string 12 true = Except.ok "twelve" ∧
    number_string (PyValue.str "12.34") = Except.ok "twelve point three four" ∧
    number_string (PyValue.str "12.34") ≠
      Except.ok ("twelve" ++ " point one three") := by
  refine ⟨by decide, by decide, by decide⟩

/-- C2 (amended): `number_string("12.34")` equals
`integer_string(12) ++ " point three four"`: the fractional digits are each
rendered as individual single-digit words joined by spaces after "point",
never as a multi-digit number. -/
theorem claim_c2 :
    number_string (PyValue.str "12.34") = Except.ok ("twelve" ++ " point three four") ∧
    integer_string 12 true = Except.ok "twelve" ∧
    number_string (PyValue.str "12.34") =
      Except.map (fun s => s ++ " point three four") (integer_string 12 true) := by
  refine ⟨by decide, by decide, by decide⟩

/-- C4: for every n in [1, 999], the default rendering has no comma and no
scale word, and compound tens 21-99 (excluding exact tens) are exactly one
hyphen joining a tens-table word to a digit-table word. -/
theorem claim_c4 : ∀ n : Nat, n < 1000 → 1 ≤ n → c4_check n = true := by decide

/-- Witness for C4 at n = 21. -/
theorem claim_c4_witness : c4_check 21 = true :=
  claim_c4 21 (by decide) (by decide)

/-- C5: `integer_string 1234` with and without the conjunction flag, and in
general "and" appears inside a chunk exactly when the flag is enabled and
both the hundreds digit and the remainder are non-zero, placed between the
hundreds words and the tens/units phrase. -/
theorem claim_c5 :
    integer_string 1234 true = Except.ok "one thousand, two hundred and thirty-four" ∧
    integer_string 1234 false = Except.ok "one thousand, two hundred thirty-four" ∧
    ∀ c : Nat, c < 1000 → ∀ u : Bool, c5_check c u = true := by
  refine ⟨by decide, by decide, ?_⟩
  decide

/-- Witness for C5 at chunk 234 with the flag enabled. -/
theorem claim_c5_witness : c5_check 234 true = true :=
  claim_c5.2.2 234 (by decide) true

/-- C7: `integer_string 0` returns exactly "zero" through the dedicated
guard, while the chunking loop on 0 would produce the empty phrase (the
spec-side loop rendering of 0 is ""). -/
theorem claim_c7 :
    integer_string 0 true = Except.ok "zero" ∧
    integer_string 0 false = Except.ok "zero" ∧
    integer_string_spec 0 true = "" ∧
    integer_string_spec 0 false = "" := by
  refine ⟨by decide, by decide, by decide, by decide⟩

/-- C10: for every chunk value in [0, 999] all vocabulary lookups succeed,
remainders 1-9 come straight from the merged table as bare digit words
(so 105 renders as "one hundred and five"), and the hyphenated branch is
reached exactly for remainders 21-99 that are not multiples of ten. -/
theorem claim_c10 :
    (∀ c : Nat, c < 1000 → c10_check c = true) ∧
    integer_string 105 true = Except.ok "one hundred and five" := by
  refine ⟨?_, by decide⟩
  decide

/-- Witness for C10 at chunk 105. -/
theorem claim_c10_witness : c10_check 105 = true :=
  claim_c10.1 105 (by decide)

lemma digits_rev_congr : ∀ (f1 : Nat), ∀ (f2 n b : Nat), 1 < b → n ≤ f1 → n ≤ f2 →
    digits_rev f1 n b = digits_rev f2 n b := by
  intro f1
  induction f1 with
  | zero =>
    intro f2 n b hb h1 h2
    have hn : n = 0 := Nat.le_zero.mp h1
    subst hn
    cases f2 with
    | zero => rfl
    | succ f2p => simp [digits_rev]
  | succ f1p ih =>
    intro f2 n b hb h1 h2
    by_cases hn : n = 0
    · subst hn
      cases f2 with
      | zero => simp [digits_rev]
      | succ f2p => simp [digits_rev]
    · cases f2 with
      | zero => omega
      | succ f2p =>
        have hlt : n / b < n := Nat.div_lt_self (Nat.pos_of_ne_zero hn) hb
        simp only [digits_rev, if_neg hn]
        have := ih f2p (n / b) b hb (by omega) (by omega)
        rw [this]

lemma ltfd_cons (n : Nat) (hn : n ≠ 0) :
    last_to_first_digit n 1000 =
      n % 1000 :: last_to_first_digit (n / 1000) 1000 := by
  unfold last_to_first_digit
  cases n with
  | zero => exact absurd rfl hn
  | succ m =>
    simp only [digits_rev, if_neg hn]
    have hlt : (m + 1) / 1000 < m + 1 := Nat.div_lt_self (by omega) (by omega)
    exact congrArg _ (digits_rev_congr m _ _ 1000 (by omega) (by omega) (by omega))

lemma ltfd_zero : last_to_first_digit 0 1000 = [] := rfl

lemma ltfd_mem_lt : ∀ (n : Nat), ∀ c ∈ last_to_first_digit n 1000, c < 1000 := by
  intro n
  induction n using Nat.strong_induction_on with
  | _ n ih =>
    by_cases hn : n = 0
    · subst hn; intro c hc; simp [ltfd_zero] at hc
    · intro c hc
      rw [ltfd_cons n hn] at hc
      rcases List.mem_cons.mp hc with h | h
      · subst h; exact Nat.mod_lt _ (by omega)
      · exact ih (n / 1000) (Nat.div_lt_self (Nat.pos_of_ne_zero hn) (by omega)) c h

lemma ltfd_length_le : ∀ (k n : Nat), n < 1000 ^ k →
    (last_to_first_digit n 1000).length ≤ k := by
  intro k
  induction k with
  | zero => intro n h; interval_cases n; simp [ltfd_zero]
  | succ kp ih =>
    intro n h
    by_cases hn : n = 0
    · subst hn; simp [ltfd_zero]
    · rw [ltfd_cons n hn]
      simp only [List.length_cons]
      have : n / 1000 < 1000 ^ kp := by
        rw [Nat.div_lt_iff_lt_mul (by omega : (0:Nat) < 1000)]
        calc n < 1000 ^ (kp + 1) := h
        _ = 1000 ^ kp * 1000 := by rw [Nat.pow_succ]
      exact Nat.succ_le_succ (ih (n / 1000) this)

lemma chunk_words_ok_all : ∀ c : Nat, c < 1000 → ∀ u : Bool,
    except_is_ok (chunk_words c u) = true := by decide

lemma chunk_words_exists {c : Nat} (hc : c < 1000) (u : Bool) :
    ∃ ws, chunk_words c u = Except.ok ws := by
  have h := chunk_words_ok_all c hc u
  cases hcw : chunk_words c u with
  | ok ws => exact ⟨ws, rfl⟩
  | error e => rw [hcw] at h; simp [except_is_ok] at h

lemma scale_words_spec (i : Nat) (hi : i ≤ ILLIONS.length + 1) :
    scale_words i = Except.ok (spec_scale i) := by
  rcases Nat.lt_or_ge i 2 with h2 | h2
  · interval_cases i <;> rfl
  · have hlt : i - 2 < ILLIONS.length := by
      simp only [ILLIONS] at hi ⊢
      simp at hi ⊢
      omega
    have hr := List.get?_eq_get hlt
    simp only [scale_words, spec_scale]
    rw [if_neg (show ¬ i = 1 by omega), if_pos (show i > 1 by omega), hr,
      if_neg (show ¬ i = 0 by omega), if_neg (show ¬ i = 1 by omega)]
    simp

lemma chunk_phrases_spec : ∀ (l : List Nat) (i : Nat) (u : Bool),
    (∀ c ∈ l, c < 1000) → i + l.length ≤ ILLIONS.length + 2 →
    chunk_phrases l i u =
      Except.ok (((List.enumFrom i l).filterMap
        (fun p => if p.2 = 0 then none else some (phrase_of p.2 p.1 u))).reverse) := by
  intro l
  induction l with
  | nil => intro i u _ _; simp [chunk_phrases, List.enumFrom]
  | cons c rest ih =>
    intro i u hall hlen
    have hc : c < 1000 := hall c (List.mem_cons_self c rest)
    have hrest : ∀ x ∈ rest, x < 1000 := fun x hx => hall x (List.mem_cons_of_mem c hx)
    have hlen2 : (i + 1) + rest.length ≤ ILLIONS.length + 2 := by
      simp only [List.length_cons] at hlen; omega
    have htail := ih (i + 1) u hrest hlen2
    by_cases hz : c = 0
    · subst hz
      simp only [chunk_phrases, if_pos rfl]
      rw [htail]
      simp [List.enumFrom, List.filterMap_cons]
    · obtain ⟨ws, hws⟩ := chunk_words_exists hc u
      have hsw := scale_words_spec i (by omega)
      simp only [chunk_phrases, if_neg hz]
      rw [hws, hsw, htail]
      simp only [List.enumFrom, List.filterMap_cons, if_neg hz]
      rw [List.reverse_cons]
      congr 2
      unfold phrase_of
      rw [hws]
      simp [Except.toOption]

lemma max_lt_pow : MAX < 1000 ^ (ILLIONS.length + 2) := by decide

lemma integer_string_eq_spec (n : Int) (u : Bool) (hn : n ≠ 0) (hm : n.natAbs ≤ MAX) :
    integer_string n u =
      Except.ok ((if n < 0 then "minus " else "") ++ integer_string_spec n.natAbs u) := by
  unfold integer_string
  rw [if_neg hn]
  have hall := ltfd_mem_lt n.natAbs
  have hlen : (last_to_first_digit n.natAbs 1000).length ≤ ILLIONS.length + 2 :=
    ltfd_length_le _ _ (lt_of_le_of_lt hm max_lt_pow)
  have h := chunk_phrases_spec (last_to_first_digit n.natAbs 1000) 0 u hall (by omega)
  rw [h]
  rfl

lemma string_nil_append (s : String) : "" ++ s = s := by
  cases s
  rfl

/-- C3: within the supported magnitude the renderer equals the spec-side
rendering (zero chunks skipped with no placeholder, scale words attached by
position, non-empty chunk phrases joined most-significant-first with ", "),
and 1000000 and 2000000000 render as "one million" and "two billion". -/
theorem claim_c3 :
    (∀ (n : Int) (u : Bool), n ≠ 0 → n.natAbs ≤ MAX →
      integer_string n u =
        Except.ok ((if n < 0 then "minus " else "") ++ integer_string_spec n.natAbs u)) ∧
    integer_string 1000000 true = Except.ok "one million" ∧
    integer_string 2000000000 true = Except.ok "two billion" := by
  refine ⟨fun n u hn hm => integer_string_eq_spec n u hn hm, by decide, by decide⟩

/-- Witness for C3 at n = 1234. -/
theorem claim_c3_witness :
    integer_string 1234 true =
      Except.ok ((if (1234 : Int) < 0 then "minus " else "") ++
        integer_string_spec (Int.natAbs 1234) true) :=
  claim_c3.1 1234 true (by decide) (by decide)

/-- C6: negating a positive integer within the supported magnitude prefixes
the rendering with "minus ". -/
theorem claim_c6 (n : Int) (u : Bool) (h1 : 0 < n) (_h2 : n ≤ (MAX : Int)) :
    integer_string (-n) u =
      Except.map (fun s => "minus " ++ s) (integer_string n u) := by
  have hn : n ≠ 0 := by omega
  have hneg : -n ≠ 0 := by omega
  unfold integer_string
  rw [if_neg hneg, if_neg hn, Int.natAbs_neg,
    if_pos (show -n < 0 by omega), if_neg (show ¬ n < 0 by omega)]
  cases h : chunk_phrases (last_to_first_digit n.natAbs 1000) 0 u with
  | error e => rfl
  | ok phrases =>
    simp only [Except.map]
    rw [string_nil_append]

/-- Witness for C6 at n = 12. -/
theorem claim_c6_witness :
    integer_string (-12) true =
      Except.map (fun s => "minus " ++ s) (integer_string 12 true) :=
  claim_c6 12 true (by decide) (by decide)

/-- C8: every magnitude up to MAX renders without raising (all scale-table
indexes are in bounds), MAX itself renders, and MAX + 1 raises the
index-out-of-range error rather than silently succeeding. -/
theorem claim_c8 :
    (∀ (n : Int) (u : Bool), n.natAbs ≤ MAX → except_is_ok (integer_string n u) = true) ∧
    except_is_ok (integer_string ((MAX : Nat) : Int) true) = true ∧
    integer_string (((MAX : Nat) : Int) + 1) true = Except.error Err.indexError := by
  have h1 : ∀ (n : Int) (u : Bool), n.natAbs ≤ MAX →
      except_is_ok (integer_string n u) = true := by
    intro n u hm
    by_cases hn : n = 0
    · subst hn; rfl
    · rw [integer_string_eq_spec n u hn hm]; rfl
  refine ⟨h1, h1 _ true (by decide), by decide⟩

/-- Witness for C8 at n = 7. -/
theorem claim_c8_witness : except_is_ok (integer_string 7 true) = true :=
  claim_c8.1 7 true (by decide)

lemma is_ascii_digit_iff (c : Char) :
    is_ascii_digit c = true ↔ 48 ≤ c.toNat ∧ c.toNat ≤ 57 := by
  simp [is_ascii_digit]

lemma digit_not_space (c : Char) (h : is_ascii_digit c = true) :
    is_py_space c = false := by
  rw [is_ascii_digit_iff] at h
  simp only [is_py_space, Bool.or_eq_false_iff, beq_eq_false_iff_ne, ne_eq]
  omega

lemma underscore_not_space : is_py_space '_' = false := by decide

lemma digit_ne_plus (c : Char) (h : is_ascii_digit c = true) : ¬(c = '+') := by
  intro he; subst he; exact absurd h (by decide)

lemma digit_ne_minus (c : Char) (h : is_ascii_digit c = true) : ¬(c = '-') := by
  intro he; subst he; exact absurd h (by decide)

lemma digit_ne_underscore (c : Char) (h : is_ascii_digit c = true) : ¬(c = '_') := by
  intro he; subst he; exact absurd h (by decide)

lemma dropWhile_eq_self_of (l : List Char)
    (h : ∀ c ∈ l, is_py_space c = false) : l.dropWhile is_py_space = l := by
  cases l with
  | nil => rfl
  | cons c rest =>
    rw [List.dropWhile_cons]
    simp [h c (List.mem_cons_self c rest)]

lemma strip_chars_eq_self (l : List Char)
    (h : ∀ c ∈ l, is_py_space c = false) : strip_chars l = l := by
  unfold strip_chars
  rw [dropWhile_eq_self_of l h,
    dropWhile_eq_self_of _ (fun c hc => h c (List.mem_reverse.mp hc)),
    List.reverse_reverse]

lemma int_tail_match_chars : ∀ (k : Nat) (l : List Char), l.length ≤ k →
    int_tail_match l = true → ∀ x ∈ l, is_ascii_digit x = true ∨ x = '_' := by
  intro k
  induction k with
  | zero =>
    intro l hl _ x hx
    have : l = [] := List.eq_nil_of_length_eq_zero (Nat.le_zero.mp hl)
    subst this; simp at hx
  | succ kp ih =>
    intro l hl hm x hx
    cases l with
    | nil => simp at hx
    | cons c rest =>
      unfold int_tail_match at hm
      by_cases hd : is_ascii_digit c = true
      · rw [if_pos hd] at hm
        rcases List.mem_cons.mp hx with h | h
        · exact Or.inl (h ▸ hd)
        · exact ih rest (by simp at hl; omega) hm x h
      · rw [if_neg hd] at hm
        by_cases hu : c = '_'
        · rw [if_pos hu] at hm
          cases rest with
          | nil => exact absurd hm (by simp)
          | cons d rest2 =>
            obtain ⟨hd2, hm2⟩ := by simpa only [Bool.and_eq_true] using hm
            rcases List.mem_cons.mp hx with h | h
            · exact Or.inr (h ▸ hu)
            · rcases List.mem_cons.mp h with h2 | h2
              · exact Or.inl (h2 ▸ hd2)
              · exact ih rest2 (by simp at hl ⊢; omega) hm2 x h2
        · rw [if_neg hu] at hm
          exact absurd hm (by simp)

lemma digits_value_eq : ∀ (k : Nat) (l : List Char), l.length ≤ k → ∀ acc : Nat,
    int_tail_match l = true →
    digits_value acc l =
      some ((l.filter (fun c => !(c == '_'))).foldl
        (fun a c => 10 * a + (c.toNat - 48)) acc) := by
  intro k
  induction k with
  | zero =>
    intro l hl acc _
    have : l = [] := List.eq_nil_of_length_eq_zero (Nat.le_zero.mp hl)
    subst this; rfl
  | succ kp ih =>
    intro l hl acc hm
    cases l with
    | nil => rfl
    | cons c rest =>
      unfold int_tail_match at hm
      by_cases hd : is_ascii_digit c = true
      · rw [if_pos hd] at hm
        have hkeep : (!(c == '_')) = true := by
          simp only [Bool.not_eq_true']
          exact beq_eq_false_iff_ne.mpr (digit_ne_underscore c hd)
        unfold digits_value
        rw [if_pos hd, ih rest (by simp at hl; omega) _ hm]
        congr 1
        rw [List.filter_cons, if_pos hkeep, List.foldl_cons]
      · rw [if_neg hd] at hm
        by_cases hu : c = '_'
        · rw [if_pos hu] at hm
          cases rest with
          | nil => exact absurd hm (by simp)
          | cons d rest2 =>
            obtain ⟨hd2, hm2⟩ := by simpa only [Bool.and_eq_true] using hm
            unfold digits_value
            rw [if_neg hd, if_pos hu]
            show (if is_ascii_digit d = true
                then digits_value (10 * acc + (d.toNat - 48)) rest2 else none) = _
            rw [if_pos hd2, ih rest2 (by simp at hl ⊢; omega) _ hm2]
            congr 1
            have hdrop : ¬((!(c == '_')) = true) := by simp [hu]
            have hkeep : (!(d == '_')) = true := by
              simp only [Bool.not_eq_true']
              exact beq_eq_false_iff_ne.mpr (digit_ne_underscore d hd2)
            rw [List.filter_cons, if_neg hdrop, List.filter_cons,
              if_pos hkeep, List.foldl_cons]
        · rw [if_neg hu] at hm
          exact absurd hm (by simp)

lemma digits_run_eq (c : Char) (rest : List Char) (hc : is_ascii_digit c = true)
    (ht : int_tail_match rest = true) :
    digits_run (c :: rest) =
      some (((c :: rest).filter (fun x => !(x == '_'))).foldl
        (fun a x => 10 * a + (x.toNat - 48)) 0) := by
  simp only [digits_run]
  rw [if_pos hc, digits_value_eq rest.length rest le_rfl _ ht]
  congr 1
  have hkeep : (!(c == '_')) = true := by
    simp only [Bool.not_eq_true']
    exact beq_eq_false_iff_ne.mpr (digit_ne_underscore c hc)
  rw [List.filter_cons, if_pos hkeep, List.foldl_cons]
  congr 1
  omega

lemma py_int_of_fullmatch (s : String) (h : int_fullmatch s = true) :
    py_int s = some (spec_int_value s) := by
  cases s with
  | mk data =>
    cases data with
    | nil => exact absurd h (by decide)
    | cons c rest =>
      cases rest with
      | nil =>
        have hc : c = '0' := by
          have h2 : (c == '0') = true := h
          exact beq_iff_eq.mp h2
        subst hc
        decide
      | cons d rest2 =>
        have h2 : ((decide (49 ≤ c.toNat) && decide (c.toNat ≤ 57)) &&
            is_ascii_digit d && int_tail_match rest2) = true := h
        obtain ⟨⟨⟨ha1, ha2⟩, hd⟩, ht⟩ := by
          simpa only [Bool.and_eq_true] using h2
        have hcb : 49 ≤ c.toNat ∧ c.toNat ≤ 57 :=
          ⟨of_decide_eq_true ha1, of_decide_eq_true ha2⟩
        have hcd : is_ascii_digit c = true := (is_ascii_digit_iff c).mpr (by omega)
        have hnos : ∀ x ∈ c :: d :: rest2, is_py_space x = false := by
          intro x hx
          rcases List.mem_cons.mp hx with h1 | h1
          · exact h1 ▸ digit_not_space c hcd
          · rcases List.mem_cons.mp h1 with hh | hh
            · exact hh ▸ digit_not_space d hd
            · rcases int_tail_match_chars rest2.length rest2 le_rfl ht x hh with hd3 | hu3
              · exact digit_not_space x hd3
              · exact hu3 ▸ underscore_not_space
        have htail : int_tail_match (d :: rest2) = true := by
          unfold int_tail_match
          rw [if_pos hd]
          exact ht
        unfold py_int
        rw [strip_chars_eq_self _ hnos]
        simp only [py_int_chars]
        rw [if_neg (digit_ne_plus c hcd), if_neg (digit_ne_minus c hcd),
          digits_run_eq c (d :: rest2) hcd htail]
        rfl

lemma integer_string_ok (n : Int) (u : Bool) (hm : n.natAbs ≤ MAX) :
    except_is_ok (integer_string n u) = true := by
  by_cases hn : n = 0
  · subst hn; rfl
  · rw [integer_string_eq_spec n u hn hm]; rfl

lemma integer_string_exists (n : Int) (hm : n.natAbs ≤ MAX) :
    ∃ r, integer_string n true = Except.ok r := by
  have h := integer_string_ok n true hm
  cases hr : integer_string n true with
  | ok r => exact ⟨r, rfl⟩
  | error e => rw [hr] at h; exact absurd h (by simp [except_is_ok])

lemma digit_lookup_ok : ∀ k : Nat, k < 10 →
    except_is_ok (dict_get DIGIT_NAMES k) = true := by decide

lemma py_int_digit_char (c : Char) (hc : is_ascii_digit c = true) :
    py_int (String.mk [c]) = some ((c.toNat - 48 : Nat) : Int) := by
  unfold py_int
  rw [show strip_chars [c] = [c] from
    strip_chars_eq_self [c] (by
      intro x hx
      rcases List.mem_cons.mp hx with h1 | h1
      · exact h1 ▸ digit_not_space c hc
      · simp at h1)]
  simp only [py_int_chars]
  rw [if_neg (digit_ne_plus c hc), if_neg (digit_ne_minus c hc)]
  simp only [digits_run]
  rw [if_pos hc]
  rfl

lemma py_int_nondigit_char (c : Char) (hc : is_ascii_digit c = false) :
    py_int (String.mk [c]) = none := by
  unfold py_int
  by_cases hs : is_py_space c = true
  · rw [show strip_chars [c] = [] from by
      unfold strip_chars
      rw [List.dropWhile_cons, if_pos hs]
      rfl]
    rfl
  · rw [show strip_chars [c] = [c] from
      strip_chars_eq_self [c] (by
        intro x hx
        rcases List.mem_cons.mp hx with h1 | h1
        · subst h1; exact Bool.not_eq_true _ ▸ (Bool.eq_false_iff.mpr hs)
        · simp at h1)]
    simp only [py_int_chars]
    by_cases hp : c = '+'
    · rw [if_pos hp]; rfl
    · rw [if_neg hp]
      by_cases hm2 : c = '-'
      · rw [if_pos hm2]; rfl
      · rw [if_neg hm2]
        simp only [digits_run]
        rw [if_neg (by rw [hc]; exact Bool.false_ne_true)]
        rfl

lemma digit_name_ok (c : Char) (hc : is_ascii_digit c = true) :
    ∃ w, digit_name_of_char c = Except.ok w := by
  unfold digit_name_of_char
  rw [py_int_digit_char c hc]
  have hb : 48 ≤ c.toNat ∧ c.toNat ≤ 57 := (is_ascii_digit_iff c).mp hc
  show ∃ w, (if ((c.toNat - 48 : Nat) : Int) < 0 then Except.error Err.keyError
      else dict_get DIGIT_NAMES ((c.toNat - 48 : Nat) : Int).toNat) = Except.ok w
  rw [if_neg (show ¬((((c.toNat - 48 : Nat) : Int)) < 0) by omega)]
  have hk : ((c.toNat - 48 : Nat) : Int).toNat < 10 := by omega
  have h := digit_lookup_ok _ hk
  cases hd : dict_get DIGIT_NAMES ((c.toNat - 48 : Nat) : Int).toNat with
  | ok w => exact ⟨w, rfl⟩
  | error e => rw [hd] at h; exact absurd h (by simp [except_is_ok])

lemma digit_name_err (c : Char) (hc : is_ascii_digit c = false) :
    digit_name_of_char c = Except.error Err.valueError := by
  unfold digit_name_of_char
  rw [py_int_nondigit_char c hc]

lemma digit_words_ok : ∀ l : List Char, l.all is_ascii_digit = true →
    ∃ ws, digit_words l = Except.ok ws := by
  intro l
  induction l with
  | nil => intro _; exact ⟨[], rfl⟩
  | cons c rest ih =>
    intro h
    obtain ⟨hc, hrest⟩ := by simpa only [List.all_cons, Bool.and_eq_true] using h
    obtain ⟨w, hw⟩ := digit_name_ok c hc
    obtain ⟨ws, hws⟩ := ih hrest
    refine ⟨w :: ws, ?_⟩
    simp only [digit_words]
    rw [hw, hws]

lemma digit_words_err : ∀ l : List Char, l.all is_ascii_digit = false →
    digit_words l = Except.error Err.valueError := by
  intro l
  induction l with
  | nil => intro h; exact absurd h (by simp)
  | cons c rest ih =>
    intro h
    by_cases hc : is_ascii_digit c = true
    · have hrest : rest.all is_ascii_digit = false := by
        by_contra hr
        have : rest.all is_ascii_digit = true := Bool.not_eq_false _ ▸ (eq_true_of_ne_false hr)
        rw [List.all_cons, hc, this] at h
        exact absurd h (by simp)
      obtain ⟨w, hw⟩ := digit_name_ok c hc
      simp only [digit_words]
      rw [hw, ih hrest]
    · have hcf : is_ascii_digit c = false := Bool.eq_false_iff.mpr hc
      simp only [digit_words]
      rw [digit_name_err c hcf]

/-- C1 counterexample: the single digit "5" and the signed string "-12" are
not matched by `INT_REGEX` (whose nonzero alternative requires a digit 1-9
followed by at least one more digit and has no sign), so `number_string`
falls through to float handling and raises, instead of delegating to
`integer_string`. -/
theorem claim_c1_counterexample :
    number_string (PyValue.str "5") = Except.error Err.valueError ∧
    number_string (PyValue.str "-12") = Except.error Err.valueError ∧
    integer_string 5 true = Except.ok "five" ∧
    int_fullmatch "5" = false ∧
    int_fullmatch "-12" = false := by
  refine ⟨by decide, by decide, by decide, by decide, by decide⟩

/-- C1 (amended): a string is recognized as an integer exactly when it
matches `0|([1-9]\d+(_\d+)*)` — the literal "0", or a digit 1-9 followed by
at least one more digit with optional underscore-separated digit groups, no
sign — and every such string delegates to `integer_string` applied to its
numeric value (the underscores dropped, digits read in base 10). -/
theorem claim_c1 (s : String) (h : int_fullmatch s = true) :
    py_int s = some (spec_int_value s) ∧
    number_string (PyValue.str s) = integer_string (spec_int_value s) true := by
  have hp := py_int_of_fullmatch s h
  refine ⟨hp, ?_⟩
  simp only [number_string]
  rw [if_pos h, hp]

/-- Witness for C1 at the string "12". -/
theorem claim_c1_witness :
    py_int "12" = some (spec_int_value "12") ∧
    number_string (PyValue.str "12") = integer_string (spec_int_value "12") true :=
  claim_c1 "12" (by decide)

/-- Concrete input for the C9 counterexample: the integer part is
`10^102 = MAX + 1` and the fractional part is the non-digit "x". -/
def c9_cex : String := String.mk ('1' :: (List.replicate 102 '0' ++ ['.', 'x']))

/-- C9 counterexample: on `"1<102 zeros>.x"` the integer part exceeds MAX,
so rendering raises the index error before the fractional digits are
validated; the input is not recognized, yet the raised error is not the
parse error, refuting the claimed equivalence. -/
theorem claim_c9_counterexample :
    number_string (PyValue.str c9_cex) = Except.error Err.indexError ∧
    recognized_value (PyValue.str c9_cex) = false ∧
    ¬(number_string (PyValue.str c9_cex) = Except.error Err.valueError) := by
  refine ⟨by decide, by decide, by decide⟩

/-- C9 (amended): provided every integer component the dispatcher renders
is within the supported magnitude, `number_string` raises the parse error
exactly when its input is neither a recognized integer string, nor an
integer, nor decomposable into an integer part accepted by `int()` and a
fractional digit sequence (and an error value means no result is
returned). -/
theorem claim_c9 (v : PyValue) (h : within_max v = true) :
    (number_string v = Except.error Err.valueError) ↔
      recognized_value v = false := by
  cases v with
  | int n =>
    have hm : n.natAbs ≤ MAX :=
      of_decide_eq_true (show decide (n.natAbs ≤ MAX) = true from h)
    obtain ⟨r, hr⟩ := integer_string_exists n hm
    constructor
    · intro he
      have he2 : integer_string n true = Except.error Err.valueError := he
      rw [hr] at he2
      exact absurd he2 (by simp)
    · intro hrec
      have hrec2 : (true : Bool) = false := hrec
      exact absurd hrec2 (by simp)
  | str s =>
    by_cases hf : int_fullmatch s = true
    · have hrec : recognized_value (PyValue.str s) = true := by
        simp only [recognized_value]
        rw [hf, Bool.true_or]
      have hp := py_int_of_fullmatch s hf
      simp only [within_max] at h
      rw [if_pos hf, hp] at h
      have hm : (spec_int_value s).natAbs ≤ MAX :=
        of_decide_eq_true
          (show decide ((spec_int_value s).natAbs ≤ MAX) = true from h)
      obtain ⟨r, hr⟩ := integer_string_exists (spec_int_value s) hm
      simp only [number_string]
      rw [if_pos hf, hp]
      show (integer_string (spec_int_value s) true = Except.error Err.valueError) ↔
        recognized_value (PyValue.str s) = false
      rw [hr, hrec]
      simp
    · have hff : int_fullmatch s = false := Bool.eq_false_iff.mpr hf
      simp only [number_string]
      rw [if_neg hf]
      simp only [within_max] at h
      rw [if_neg hf] at h
      simp only [recognized_value]
      rw [hff, Bool.false_or]
      simp only [float_handling]
      cases hsp : split_on_dot s.data with
      | nil => simp
      | cons a rest =>
        cases rest with
        | nil => simp
        | cons b rest2 =>
          cases rest2 with
          | cons c3 t => simp
          | nil =>
            rw [hsp] at h
            have h2 : (match py_int (String.mk a) with
                       | some n => decide (n.natAbs ≤ MAX)
                       | none => true) = true := h
            show ((match py_int (String.mk a) with
                   | none => Except.error Err.valueError
                   | some i =>
                     match integer_string i true with
                     | Except.error e => Except.error e
                     | Except.ok integer_part =>
                       match digit_words b with
                       | Except.error e => Except.error e
                       | Except.ok names =>
                         Except.ok (integer_part ++ " point " ++
                           String.intercalate " " names))
                  = Except.error Err.valueError) ↔
                (((py_int (String.mk a)).isSome && b.all is_ascii_digit) = false)
            cases hpi : py_int (String.mk a) with
            | none => simp
            | some i =>
              rw [hpi] at h2
              have hm : i.natAbs ≤ MAX :=
                of_decide_eq_true (show decide (i.natAbs ≤ MAX) = true from h2)
              obtain ⟨ip, hip⟩ := integer_string_exists i hm
              show ((match integer_string i true with
                     | Except.error e => Except.error e
                     | Except.ok integer_part =>
                       match digit_words b with
                       | Except.error e => Except.error e
                       | Except.ok names =>
                         Except.ok (integer_part ++ " point " ++
                           String.intercalate " " names))
                    = Except.error Err.valueError) ↔
                  (((some i : Option Int).isSome && b.all is_ascii_digit) = false)
              rw [hip]
              by_cases hall : b.all is_ascii_digit = true
              · obtain ⟨ws, hws⟩ := digit_words_ok b hall
                rw [hws, hall]
                simp
              · have hbf : b.all is_ascii_digit = false := Bool.eq_false_iff.mpr hall
                rw [digit_words_err b hbf, hbf]
                simp

/-- Witness for C9 at the string "abc": no decimal point, not an integer
string, so the parse error is raised. -/
theorem claim_c9_witness :
    within_max (PyValue.str "abc") = true ∧
    ((number_string (PyValue.str "abc") = Except.error Err.valueError) ↔
      recognized_value (PyValue.str "abc") = false) :=
  ⟨by decide, claim_c9 (PyValue.str "abc") (by decide)⟩

end NumString
